import Mathlib

/-!
Verification of the weblogs access-log middleware (package `weblogs` and its
`loggers` subpackage) against its natural-language specification.

The Go source is shallowly embedded: pure helpers become Lean functions,
the response `Capture` becomes explicit state passing over a `Capture`
structure together with an abstract underlying `ResponseWriter`, and the
coordinator's `ServeHTTP` becomes a function from a handler behaviour
(the sequence of response/side-channel actions it performs, ending either
normally or in a panic) to the final underlying-writer state and the list
of chunks written to the output sink.
-/

namespace Weblogs

/-- Two-digit zero padding, as Go's `time.Format` does for the layout
fields `01`, `02`, `15`, `04`, `05`. -/
def pad2 (n : Nat) : String :=
  if n < 10 then "0" ++ toString n else toString n

/-- Four-digit zero padding, as Go's `time.Format` does for the layout
field `2006`. -/
def pad4 (n : Nat) : String :=
  if n < 10 then "000" ++ toString n
  else if n < 100 then "00" ++ toString n
  else if n < 1000 then "0" ++ toString n
  else toString n

/-- Go's three-letter month abbreviation used by the layout field `Jan`. -/
def monthName (m : Nat) : String :=
  match m with
  | 1 => "Jan" | 2 => "Feb" | 3 => "Mar" | 4 => "Apr"
  | 5 => "May" | 6 => "Jun" | 7 => "Jul" | 8 => "Aug"
  | 9 => "Sep" | 10 => "Oct" | 11 => "Nov" | 12 => "Dec"
  | _ => ""

/-- Model of Go's `time.Time`: the wall-clock fields in the time's own
location (which `Format` renders), the nanosecond part, the location's
offset from UTC in seconds (rendered by the layout field `-0700`), and the
absolute instant in nanoseconds since some epoch (used by `Sub`). -/
structure GoTime where
  year : Nat
  month : Nat
  day : Nat
  hour : Nat
  minute : Nat
  second : Nat
  nanos : Nat
  offsetSecs : Int
  absNanos : Int
deriving DecidableEq, Repr

/-- Go `endTime.Sub(startTime)`: a `time.Duration` in nanoseconds. -/
def GoTime.sub (t u : GoTime) : Int := t.absNanos - u.absNanos

/-- Rendering of the layout field `-0700`: sign, two offset-hour digits,
two offset-minute digits, from the time's own zone offset. -/
def offsetString (ofs : Int) : String :=
  (if ofs < 0 then "-" else "+") ++
    pad2 (ofs.natAbs / 3600) ++ pad2 (ofs.natAbs % 3600 / 60)

/-- Go `t.Format("01/02/2006 15:04:05")` as called by `simpleLogger.Log`.
The layout has no fractional-second field, so the nanosecond part of the
time is not rendered. -/
def formatSimpleLayout (t : GoTime) : String :=
  pad2 t.month ++ "/" ++ pad2 t.day ++ "/" ++ pad4 t.year ++ " " ++
    pad2 t.hour ++ ":" ++ pad2 t.minute ++ ":" ++ pad2 t.second

/-- Go `t.Format("02/Jan/2006:15:04:05 -0700")` as called by the two
Apache loggers. `-0700` renders the offset of the time's own location. -/
def formatApacheLayout (t : GoTime) : String :=
  pad2 t.day ++ "/" ++ monthName t.month ++ "/" ++ pad4 t.year ++ ":" ++
    pad2 t.hour ++ ":" ++ pad2 t.minute ++ ":" ++ pad2 t.second ++ " " ++
    offsetString t.offsetSecs

/-- Go integer division truncates toward zero; `log.Duration /
time.Millisecond` divides the nanosecond count by 1000000 this way. -/
def durationMillis (d : Int) : Int := Int.tdiv d 1000000

/-- Model of `url.URL` restricted to the shape server requests carry
(empty scheme, empty host, no opaque part): the optional userinfo
username, the path and the raw query. -/
structure URL where
  user : Option String
  path : String
  rawQuery : String
deriving DecidableEq, Repr

/-- Go `(*url.URL).String()` for URLs of the restricted shape above:
userinfo (when present) is preceded by `//` and followed by `@`, then the
path, then `?` and the raw query when the query is nonempty. -/
def urlString (u : URL) : String :=
  (match u.user with
   | none => ""
   | some name => "//" ++ name ++ "@") ++
  u.path ++ (if u.rawQuery = "" then "" else "?" ++ u.rawQuery)

/-- Go `(*url.URL).RequestURI()` for the restricted shape: path, then `?`
and the raw query when the query is nonempty. -/
def requestURI (u : URL) : String :=
  u.path ++ (if u.rawQuery = "" then "" else "?" ++ u.rawQuery)

/-- Model of `loggers.ApacheUser`: a missing userinfo or an empty username is
formatted as `-`, otherwise the username itself. -/
def ApacheUser (user : Option String) : String :=
  match user with
  | none => "-"
  | some name => if name = "" then "-" else name

/-- Index of the last occurrence of `c`, or `none`: Go
`strings.LastIndex(s, ":")` with `-1` modelled as `none`. -/
def lastIndexOf (c : Char) : List Char → Option Nat
  | [] => none
  | x :: xs =>
      match lastIndexOf c xs with
      | some i => some (i + 1)
      | none => if x = c then some 0 else none

/-- Model of `loggers.StripPort` on a list of characters: everything before the
last `:` when one occurs, the input unchanged otherwise. -/
def stripPortL (s : List Char) : List Char :=
  match lastIndexOf ':' s with
  | some i => s.take i
  | none => s

/-- Model of `loggers.StripPort` on strings. -/
def StripPort (s : String) : String :=
  ⟨stripPortL s.data⟩

/-- The underlying `http.ResponseWriter` the Capture delegates to,
abstracted over its state type `σ`: `Write` returns the new state, the
number of bytes it accepted and an optional error; `WriteHeader` returns
the new state. Header-map access is not modelled (no claim concerns it). -/
structure ResponseWriter (σ : Type) where
  write : σ → String → σ × Nat × Option String
  writeHeader : σ → Nat → σ

/-- The observational state of `loggers.Capture`: recorded status, byte
count and the status-set flag. The embedded underlying writer is threaded
separately as a `σ` value. -/
structure Capture where
  status : Nat
  size : Nat
  statusSet : Bool
deriving DecidableEq, Repr

/-- A fresh `&loggers.Capture{ResponseWriter: w}`: Go zero values. -/
def Capture.init : Capture := ⟨0, 0, false⟩

/-- Model of `Capture.maybeSetStatus`: record `status` only if none recorded yet. -/
def Capture.maybeSetStatus (c : Capture) (status : Nat) : Capture :=
  if !c.statusSet then { c with status := status, statusSet := true } else c

/-- Model of `Capture.Write`: forward to the underlying writer, add the count it
accepted to `size`, then implicitly record status 200; the underlying
writer's count and error are returned to the caller. -/
def Capture.Write (rw : ResponseWriter σ) (c : Capture) (u : σ)
    (b : String) : Capture × σ × Nat × Option String :=
  let r := rw.write u b
  let c1 : Capture := { c with size := c.size + r.2.1 }
  (c1.maybeSetStatus 200, r.1, r.2.1, r.2.2)

/-- Model of `Capture.WriteHeader`: forward to the underlying writer, then record
the status only if none was recorded yet. -/
def Capture.WriteHeader (rw : ResponseWriter σ) (c : Capture) (u : σ)
    (status : Nat) : Capture × σ :=
  (c.maybeSetStatus status, rw.writeHeader u status)

/-- Model of `Capture.HasStatus`. -/
def Capture.HasStatus (c : Capture) : Bool := c.statusSet

/-- Go `http.StatusText(500)`. -/
def statusText500 : String := "Internal Server Error"

/-- Model of `sendError`: `http.Error(w, fmt.Sprintf("%d %s", status, text), status)`,
which writes the header with `status` and then the message plus a newline
through the capture (header-map sets are not modelled). Specialised to the
one call site, `status = 500`. -/
def sendError500 (rw : ResponseWriter σ) (c : Capture) (u : σ) :
    Capture × σ :=
  let p := Capture.WriteHeader rw c u 500
  let q := Capture.Write rw p.1 p.2 ("500 " ++ statusText500 ++ "\n")
  (q.1, q.2.1)

/-- Model of `maybeSend500`: synthesize the 500 response only when the capture has
no status. -/
def maybeSend500 (rw : ResponseWriter σ) (c : Capture) (u : σ) :
    Capture × σ :=
  if !c.HasStatus then sendError500 rw c u else (c, u)

/-- The fields of `loggers.Snapshot` with the URL held by value (the heap
model below accounts for the pointer indirection of the Go struct). -/
structure Snapshot where
  remoteAddr : String
  method : String
  proto : String
  url : URL
  referer : String
  userAgent : String
deriving DecidableEq, Repr

/-- Model of `weblogs.LogRecord`: start time, request snapshot, response capture,
elapsed duration (nanoseconds), extra side-channel text and the key-value
pairs. -/
structure LogRecord where
  t : GoTime
  r : Snapshot
  w : Capture
  duration : Int
  extra : String
  values : List (String × String)
deriving DecidableEq, Repr

/-- The line written by `simpleLogger.Log`:
`fmt.Fprintf(w, "%s %s %s %s %d %d%s\n", ...)` — note the extra text
follows the millisecond field with no separator of its own. -/
def simpleLogLine (rec : LogRecord) : String :=
  formatSimpleLayout rec.t ++ " " ++
  StripPort rec.r.remoteAddr ++ " " ++
  rec.r.method ++ " " ++
  urlString rec.r.url ++ " " ++
  toString rec.w.status ++ " " ++
  toString (durationMillis rec.duration) ++
  rec.extra ++ "\n"

/-- The line written by `apacheCommonLogger.Log`: remote address without
port, `-`, apache user, bracketed time, the quoted request line
(method, request URI, protocol), status and size. -/
def apacheCommonLogLine (rec : LogRecord) : String :=
  StripPort rec.r.remoteAddr ++ " - " ++
  ApacheUser rec.r.url.user ++ " [" ++
  formatApacheLayout rec.t ++ "] \"" ++
  rec.r.method ++ " " ++
  requestURI rec.r.url ++ " " ++
  rec.r.proto ++ "\" " ++
  toString rec.w.status ++ " " ++
  toString rec.w.size ++ "\n"

/-- The line written by `apacheCombinedLogger.Log`: the common line plus
the quoted referer and user agent. -/
def apacheCombinedLogLine (rec : LogRecord) : String :=
  StripPort rec.r.remoteAddr ++ " - " ++
  ApacheUser rec.r.url.user ++ " [" ++
  formatApacheLayout rec.t ++ "] \"" ++
  rec.r.method ++ " " ++
  requestURI rec.r.url ++ " " ++
  rec.r.proto ++ "\" " ++
  toString rec.w.status ++ " " ++
  toString rec.w.size ++ " \"" ++
  rec.r.referer ++ "\" \"" ++
  rec.r.userAgent ++ "\"\n"

/-! ### The coordinator (`logHandler.ServeHTTP`)

The wrapped handler is modelled by the sequence of observable actions it
performs — writes of body bytes, explicit header writes, writes of extra
text through `Writer(r)` and insertions into `Values(r)` — followed by its
outcome: a normal return or a panic with some description. A handler that
panics midway is the behaviour whose action list holds exactly the actions
performed before the panic. -/

/-- One observable action of the wrapped handler. -/
inductive HAction where
  | writeBody (b : String)
  | writeHeader (status : Nat)
  | writeExtra (s : String)
  | setValue (k v : String)
deriving DecidableEq, Repr

/-- How the wrapped handler finishes. -/
inductive HOutcome where
  | normal
  | panics (description : String)
deriving DecidableEq, Repr

/-- A behaviour of the wrapped handler. -/
structure HandlerBehavior where
  acts : List HAction
  outcome : HOutcome
deriving DecidableEq, Repr

/-- Mid-request state threaded through the handler's actions: the capture,
the underlying writer, the extra-text buffer and the value map. -/
structure ReqState (σ : Type) where
  c : Capture
  u : σ
  extra : String
  values : List (String × String)

/-- Run one handler action. Body and header writes go through the Capture
(which delegates to the underlying writer); extra text appends to the
per-request buffer installed by the coordinator; values append to the
per-request map. -/
def runAction (rw : ResponseWriter σ) (st : ReqState σ) :
    HAction → ReqState σ
  | .writeBody b =>
      let r := Capture.Write rw st.c st.u b
      { st with c := r.1, u := r.2.1 }
  | .writeHeader s =>
      let r := Capture.WriteHeader rw st.c st.u s
      { st with c := r.1, u := r.2 }
  | .writeExtra s => { st with extra := st.extra ++ s }
  | .setValue k v => { st with values := st.values ++ [(k, v)] }

/-- Run the handler's whole action sequence. -/
def runActions (rw : ResponseWriter σ) (st : ReqState σ) :
    List HAction → ReqState σ
  | [] => st
  | a :: rest => runActions rw (runAction rw st a) rest

/-- One chunk written to the coordinator's output sink: a rendered log
line (one `Log` call of a built-in logger is a single line-terminated
write), the `Panic: ...` description line, or the stack trace dump. -/
inductive Entry where
  | logLine (s : String)
  | panicLine (s : String)
  | stackTrace
deriving DecidableEq, Repr

/-- Whether an output chunk is a log line. -/
def Entry.isLogLine : Entry → Bool
  | .logLine _ => true
  | _ => false

/-- The per-request state after the handler has run and the deferred
completion step has ensured a status (`maybeSend500`): capture, underlying
writer, extra text and values, starting from a fresh capture, a fresh
buffer and an empty value map. -/
def serveParts (rw : ResponseWriter σ) (hb : HandlerBehavior) (u0 : σ) :
    ReqState σ :=
  let st := runActions rw ⟨Capture.init, u0, "", []⟩ hb.acts
  let p := maybeSend500 rw st.c st.u
  { st with c := p.1, u := p.2 }

/-- The `LogRecord` the deferred completion step assembles: start time,
the snapshot taken at entry, the final capture, `endTime.Sub(startTime)`,
the buffer contents and the value map. -/
def serveRecord (rw : ResponseWriter σ) (snap : Snapshot)
    (hb : HandlerBehavior) (u0 : σ) (startTime endTime : GoTime) :
    LogRecord :=
  let st := serveParts rw hb u0
  ⟨startTime, snap, st.c, endTime.sub startTime, st.extra, st.values⟩

/-- Model of `logHandler.ServeHTTP`, parametrised by the render function of the
configured logger (each built-in logger's `Log` is a single formatted
write of one line): the snapshot is taken at entry, the handler runs
against the capture, and the deferred block — which runs on normal return
and on panic alike, absorbing the panic via `recover` — synthesizes a 500
when no status was sent, writes exactly one rendered log line, and, when a
panic was recovered, additionally writes the panic description and the
stack trace after the log line. Returns the final underlying-writer state
and the chunks written to the output sink. -/
def serveHTTP (rw : ResponseWriter σ) (render : LogRecord → String)
    (snap : Snapshot) (hb : HandlerBehavior) (u0 : σ)
    (startTime endTime : GoTime) : σ × List Entry :=
  let st := serveParts rw hb u0
  let record := serveRecord rw snap hb u0 startTime endTime
  (st.u,
    Entry.logLine (render record) ::
      (match hb.outcome with
       | .normal => []
       | .panics d => [Entry.panicLine ("Panic: " ++ d ++ "\n"),
                       Entry.stackTrace]))

/-! ### Snapshot creation (`loggers.NewSnapshot`) and URL aliasing

`loggers.Snapshot` holds a pointer to a `url.URL`; `NewSnapshot`
dereferences the request's URL pointer and stores the copy behind a fresh
pointer, so later in-place mutation of the request's URL does not reach
the snapshot. Pointers are modelled as addresses into an explicit URL
heap. -/

/-- A heap of `url.URL` cells: the store and the next fresh address. -/
structure URLHeap where
  cells : Nat → URL
  next : Nat

/-- The request as the coordinator sees it at arrival: scalar fields plus
a pointer to its URL cell. `referer` and `userAgent` model the values of
`r.Referer()` and `r.UserAgent()` read from the headers at capture time. -/
structure RequestRef where
  remoteAddr : String
  method : String
  proto : String
  urlRef : Nat
  referer : String
  userAgent : String

/-- Model of `loggers.Snapshot` with its URL pointer explicit. -/
structure SnapshotRef where
  remoteAddr : String
  method : String
  proto : String
  urlRef : Nat
  referer : String
  userAgent : String

/-- Model of `loggers.NewSnapshot`: copy the scalar fields, dereference the
request's URL into `urlSnapshot`, allocate a fresh cell holding that copy
and point the snapshot at it. -/
def NewSnapshot (h : URLHeap) (r : RequestRef) : URLHeap × SnapshotRef :=
  let urlSnapshot := h.cells r.urlRef
  let addr := h.next
  (⟨fun a => if a = addr then urlSnapshot else h.cells a, h.next + 1⟩,
   ⟨r.remoteAddr, r.method, r.proto, addr, r.referer, r.userAgent⟩)

/-- In-place mutation of the URL cell a request points at, e.g.
`r.URL.Path = "/HandlerMutatedRequest"`: apply `f` to the pointed-to
value. -/
def mutateURL (h : URLHeap) (addr : Nat) (f : URL → URL) : URLHeap :=
  ⟨fun a => if a = addr then f (h.cells a) else h.cells a, h.next⟩

/-- Reading a `SnapshotRef` into the by-value `Snapshot` the formatters
consume: dereference its URL pointer. -/
def SnapshotRef.read (h : URLHeap) (s : SnapshotRef) : Snapshot :=
  ⟨s.remoteAddr, s.method, s.proto, h.cells s.urlRef, s.referer,
   s.userAgent⟩

/-! ### The per-request side channel (`Writer` and `Values`)

`gorilla/context` keys per-request data by the request object; the
coordinator registers a buffer under `kBufferKey` and a value map under
`kValuesKey`. A request that never went through the coordinator has
neither registered. -/

/-- What `gorilla/context` holds for one request: the buffer registered
under `kBufferKey` and the value map registered under `kValuesKey`, each
possibly absent, as buffer identifiers into a buffer store. -/
structure RequestCtx where
  buffered : Option Nat
  valued : Option (List (String × String))

/-- The handle `weblogs.Writer` returns: the registered buffer, or the
no-op `nilWriter`. -/
inductive WriterHandle where
  | nilWriter
  | buffer (id : Nat)
deriving DecidableEq, Repr

/-- Model of `weblogs.Writer(r)`: look up `kBufferKey`; absent means `nilWriter`. -/
def Writer (ctx : RequestCtx) : WriterHandle :=
  match ctx.buffered with
  | none => WriterHandle.nilWriter
  | some b => WriterHandle.buffer b

/-- Model of `weblogs.Values(r)`: look up `kValuesKey`; absent means `nil`. -/
def Values (ctx : RequestCtx) : Option (List (String × String)) :=
  ctx.valued

/-- A store of extra-text buffers, addressed by identifier. -/
def BufStore : Type := Nat → String

/-- Writing through a `WriterHandle`: `nilWriter.Write` reports `len(p)`
accepted with no error and touches nothing; a buffer handle appends to its
buffer and likewise reports `len(p)` with no error. -/
def WriterHandle.write (st : BufStore) (h : WriterHandle) (p : String) :
    BufStore × Nat × Option String :=
  match h with
  | .nilWriter => (st, p.length, none)
  | .buffer b =>
      (fun a => if a = b then st a ++ p else st a, p.length, none)

/-! ### Auxiliary predicates over handler behaviours -/

/-- Holds `true` when the handler's first response-touching action is a body
write (an implicit-status write before any explicit `WriteHeader`). -/
def firstRespIsWrite : List HAction → Bool
  | [] => false
  | .writeBody _ :: _ => true
  | .writeHeader _ :: _ => false
  | _ :: rest => firstRespIsWrite rest

/-- Holds `true` when the handler performs no body write and no header write,
i.e. it leaves the response untouched. -/
def respActionFree : List HAction → Bool
  | [] => true
  | .writeBody _ :: _ => false
  | .writeHeader _ :: _ => false
  | _ :: rest => respActionFree rest

/-- The byte counts the underlying writer accepts for each of the
handler's body writes, in order, from initial underlying state `u`. -/
def acceptedSizes (rw : ResponseWriter σ) : List HAction → σ → List Nat
  | [], _ => []
  | .writeBody b :: rest, u =>
      (rw.write u b).2.1 :: acceptedSizes rw rest (rw.write u b).1
  | .writeHeader s :: rest, u => acceptedSizes rw rest (rw.writeHeader u s)
  | .writeExtra _ :: rest, u => acceptedSizes rw rest u
  | .setValue _ _ :: rest, u => acceptedSizes rw rest u

/-- The concatenation, in order, of the texts the handler writes through
the side-channel writer. -/
def extrasOf : List HAction → String
  | [] => ""
  | .writeExtra s :: rest => s ++ extrasOf rest
  | _ :: rest => extrasOf rest

/-- Everything `simpleLogLine` renders before the extra text: the Simple
line is this head, then the extra text verbatim, then the newline. -/
def simpleLineHead (rec : LogRecord) : String :=
  formatSimpleLayout rec.t ++ " " ++
  StripPort rec.r.remoteAddr ++ " " ++
  rec.r.method ++ " " ++
  urlString rec.r.url ++ " " ++
  toString rec.w.status ++ " " ++
  toString (durationMillis rec.duration)

/-! ### Concrete fixtures (mirroring the repository's test suite) -/

/-- An event observed by the spy underlying writer. -/
inductive SinkEvent where
  | written (s : String)
  | headerSent (status : Nat)
deriving DecidableEq, Repr

/-- A spy underlying `ResponseWriter` that accepts every write in full,
mirroring the test suite's `nilResponseWriter` and `spyResponseWriter`. -/
def kRW : ResponseWriter (List SinkEvent) :=
  ⟨fun u s => (u ++ [SinkEvent.written s], s.length, none),
   fun u n => u ++ [SinkEvent.headerSent n]⟩

/-- The test suite's fixed clock value `2013-03-23T13:14:15.123456Z`. -/
def kTime : GoTime := ⟨2013, 3, 23, 13, 14, 15, 123456000, 0, 0⟩

/-- The same instant 387 milliseconds later (wall fields unused by the
formatters, which render only the start time). -/
def kTime387 : GoTime := { kTime with absNanos := 387000000 }

/-- The test request URL `/foo/bar?query=tall`. -/
def kURL : URL := ⟨none, "/foo/bar", "query=tall"⟩

/-- The test snapshot: remote `192.168.5.1:3333`, `GET`, `HTTP/1.0`. -/
def kSnap : Snapshot := ⟨"192.168.5.1:3333", "GET", "HTTP/1.0", kURL, "", ""⟩

/-- The same snapshot with userinfo `fred` on the URL. -/
def kApacheSnap : Snapshot :=
  { kSnap with url := ⟨some "fred", "/foo/bar", "query=tall"⟩ }

/-- Log record of the spec's Simple literal scenario: status 321, elapsed
387ms, no extra. -/
def kSimpleRec : LogRecord := ⟨kTime, kSnap, ⟨321, 0, true⟩, 387000000, "", []⟩

/-- Log record of the spec's Apache literal scenario: status 321, size 7,
user `fred`. -/
def kApacheRec : LogRecord :=
  ⟨kTime, kApacheSnap, ⟨321, 7, true⟩, 387000000, "", []⟩

/-- The Apache scenario with the timestamp carried in a zone one hour
east of UTC instead of UTC. -/
def kApacheRecOffset : LogRecord :=
  { kApacheRec with t := { kTime with offsetSecs := 3600 } }

/-- A handler behaviour that writes a body and then panics. -/
def kPanicBehavior : HandlerBehavior :=
  ⟨[HAction.writeBody "1234567"], HOutcome.panics "oops"⟩

/-! ### Helper lemmas -/

theorem maybeSetStatus_of_set (c : Capture) (s : Nat)
    (h : c.statusSet = true) : c.maybeSetStatus s = c := by
  simp [Capture.maybeSetStatus, h]

theorem maybeSetStatus_statusSet (c : Capture) (s : Nat) :
    (c.maybeSetStatus s).statusSet = true := by
  by_cases h : c.statusSet <;> simp [Capture.maybeSetStatus, h]

theorem maybeSetStatus_size (c : Capture) (s : Nat) :
    (c.maybeSetStatus s).size = c.size := by
  by_cases h : c.statusSet <;> simp [Capture.maybeSetStatus, h]

theorem runActions_append (rw : ResponseWriter σ) (st : ReqState σ)
    (xs ys : List HAction) :
    runActions rw st (xs ++ ys) = runActions rw (runActions rw st xs) ys := by
  induction xs generalizing st with
  | nil => simp [runActions]
  | cons a rest ih => simp [runActions, ih]

theorem runActions_status_stable (rw : ResponseWriter σ)
    (acts : List HAction) (st : ReqState σ) (h : st.c.statusSet = true) :
    (runActions rw st acts).c.status = st.c.status ∧
      (runActions rw st acts).c.statusSet = true := by
  induction acts generalizing st with
  | nil => exact ⟨rfl, h⟩
  | cons a rest ih =>
      cases a with
      | writeBody b =>
          have := ih (runAction rw st (.writeBody b))
            (by simp [runAction, Capture.Write, maybeSetStatus_statusSet])
          simpa [runActions, runAction, Capture.Write,
            maybeSetStatus_of_set _ _ (by simpa using h), h] using this
      | writeHeader s =>
          have := ih (runAction rw st (.writeHeader s))
            (by simp [runAction, Capture.WriteHeader, maybeSetStatus_statusSet])
          simpa [runActions, runAction, Capture.WriteHeader,
            maybeSetStatus_of_set _ _ h] using this
      | writeExtra s =>
          have := ih (runAction rw st (.writeExtra s)) (by simpa using h)
          simpa [runActions, runAction] using this
      | setValue k v =>
          have := ih (runAction rw st (.setValue k v)) (by simpa using h)
          simpa [runActions, runAction] using this

theorem runActions_size (rw : ResponseWriter σ) (acts : List HAction)
    (st : ReqState σ) :
    (runActions rw st acts).c.size
      = st.c.size + (acceptedSizes rw acts st.u).sum := by
  induction acts generalizing st with
  | nil => simp [runActions, acceptedSizes]
  | cons a rest ih =>
      cases a with
      | writeBody b =>
          have := ih (runAction rw st (.writeBody b))
          simp only [runActions, acceptedSizes, List.sum_cons]
          rw [this]
          simp [runAction, Capture.Write, maybeSetStatus_size, Nat.add_assoc]
      | writeHeader s =>
          have := ih (runAction rw st (.writeHeader s))
          simp only [runActions, acceptedSizes]
          rw [this]
          simp [runAction, Capture.WriteHeader, maybeSetStatus_size]
      | writeExtra s =>
          have := ih (runAction rw st (.writeExtra s))
          simp only [runActions, acceptedSizes]
          rw [this]
          simp [runAction]
      | setValue k v =>
          have := ih (runAction rw st (.setValue k v))
          simp only [runActions, acceptedSizes]
          rw [this]
          simp [runAction]

theorem runActions_size_mono (rw : ResponseWriter σ) (acts : List HAction)
    (st : ReqState σ) :
    st.c.size ≤ (runActions rw st acts).c.size := by
  rw [runActions_size]
  exact Nat.le_add_right _ _

theorem runActions_first_write_200 (rw : ResponseWriter σ)
    (acts : List HAction) (st : ReqState σ) (hset : st.c.statusSet = false)
    (hfw : firstRespIsWrite acts = true) :
    (runActions rw st acts).c.status = 200 ∧
      (runActions rw st acts).c.statusSet = true := by
  induction acts generalizing st with
  | nil => simp [firstRespIsWrite] at hfw
  | cons a rest ih =>
      cases a with
      | writeBody b =>
          have h1 : (runAction rw st (.writeBody b)).c.status = 200 := by
            simp [runAction, Capture.Write, Capture.maybeSetStatus, hset]
          have h2 : (runAction rw st (.writeBody b)).c.statusSet = true := by
            simp [runAction, Capture.Write, maybeSetStatus_statusSet]
          have := runActions_status_stable rw rest
            (runAction rw st (.writeBody b)) h2
          simp only [runActions]
          exact ⟨this.1.trans h1, this.2⟩
      | writeHeader s => simp [firstRespIsWrite] at hfw
      | writeExtra s =>
          have := ih (runAction rw st (.writeExtra s))
            (by simpa using hset) (by simpa [firstRespIsWrite] using hfw)
          simpa [runActions] using this
      | setValue k v =>
          have := ih (runAction rw st (.setValue k v))
            (by simpa using hset) (by simpa [firstRespIsWrite] using hfw)
          simpa [runActions] using this

theorem runActions_resp_free (rw : ResponseWriter σ) (acts : List HAction)
    (st : ReqState σ) (h : respActionFree acts = true) :
    (runActions rw st acts).c = st.c ∧ (runActions rw st acts).u = st.u := by
  induction acts generalizing st with
  | nil => exact ⟨rfl, rfl⟩
  | cons a rest ih =>
      cases a with
      | writeBody b => simp [respActionFree] at h
      | writeHeader s => simp [respActionFree] at h
      | writeExtra s =>
          have := ih (runAction rw st (.writeExtra s))
            (by simpa [respActionFree] using h)
          simpa [runActions, runAction] using this
      | setValue k v =>
          have := ih (runAction rw st (.setValue k v))
            (by simpa [respActionFree] using h)
          simpa [runActions, runAction] using this

theorem runActions_extra (rw : ResponseWriter σ) (acts : List HAction)
    (st : ReqState σ) :
    (runActions rw st acts).extra = st.extra ++ extrasOf acts := by
  induction acts generalizing st with
  | nil => simp [runActions, extrasOf]
  | cons a rest ih =>
      cases a with
      | writeBody b =>
          have := ih (runAction rw st (.writeBody b))
          simp only [runActions, extrasOf]
          rw [this]
          simp [runAction]
      | writeHeader s =>
          have := ih (runAction rw st (.writeHeader s))
          simp only [runActions, extrasOf]
          rw [this]
          simp [runAction]
      | writeExtra s =>
          have := ih (runAction rw st (.writeExtra s))
          simp only [runActions, extrasOf]
          rw [this]
          simp [runAction, String.append_assoc]
      | setValue k v =>
          have := ih (runAction rw st (.setValue k v))
          simp only [runActions, extrasOf]
          rw [this]
          simp [runAction]

/-- A handler behaviour that writes a body and then an explicit header. -/
def kWriteBehavior : HandlerBehavior :=
  ⟨[HAction.writeBody "1234567", HAction.writeHeader 321], HOutcome.normal⟩

/-! ### Claims -/

/-- C1: for every behaviour of the wrapped handler — returning normally or
panicking, after any number of response writes — the coordinator's
`ServeHTTP` writes exactly one log line to the output sink; the log line
comes first, and when the handler panicked the panic description and the
stack trace are additionally written after it (the panic is absorbed:
`serveHTTP` yields a result for panicking behaviours too). -/
theorem serveHTTP_exactly_one_log_line (rw : ResponseWriter σ)
    (render : LogRecord → String) (snap : Snapshot) (hb : HandlerBehavior)
    (u0 : σ) (t0 t1 : GoTime) :
    ((serveHTTP rw render snap hb u0 t0 t1).2.countP Entry.isLogLine = 1) ∧
    ((serveHTTP rw render snap hb u0 t0 t1).2.head?
      = some (Entry.logLine (render (serveRecord rw snap hb u0 t0 t1)))) ∧
    (hb.outcome = HOutcome.normal →
      (serveHTTP rw render snap hb u0 t0 t1).2
        = [Entry.logLine (render (serveRecord rw snap hb u0 t0 t1))]) ∧
    (∀ d, hb.outcome = HOutcome.panics d →
      (serveHTTP rw render snap hb u0 t0 t1).2
        = [Entry.logLine (render (serveRecord rw snap hb u0 t0 t1)),
           Entry.panicLine ("Panic: " ++ d ++ "\n"),
           Entry.stackTrace]) := by
  rcases hb with ⟨acts, outcome⟩
  cases outcome <;>
    simp [serveHTTP, Entry.isLogLine, List.countP_cons, List.countP_nil]

/-- C1 witness: a handler that writes `1234567` and then panics with
`oops` yields exactly the log line (with implicit status 200 and size 7)
followed by the panic description and the stack trace. -/
theorem serveHTTP_exactly_one_log_line_witness :
    (serveHTTP kRW simpleLogLine kSnap kPanicBehavior [] kTime kTime387).2
      = [Entry.logLine
           "03/23/2013 13:14:15 192.168.5.1 GET /foo/bar?query=tall 200 387\n",
         Entry.panicLine "Panic: oops\n", Entry.stackTrace] := by
  have h := (serveHTTP_exactly_one_log_line kRW simpleLogLine kSnap
      kPanicBehavior [] kTime kTime387).2.2.2 "oops" rfl
  rw [h]
  decide

/-- C2: when the wrapped handler never writes a header and never writes
body bytes, the capture has no status when the handler finishes, and the
coordinator's completion step synthesizes a 500: the underlying writer
receives a header write of 500 followed by the textual body, the capture
records status 500, and the assembled log record carries status 500. -/
theorem serveHTTP_synthesizes_500 (rw : ResponseWriter σ) (snap : Snapshot)
    (hb : HandlerBehavior) (u0 : σ) (t0 t1 : GoTime)
    (h : respActionFree hb.acts = true) :
    (runActions rw ⟨Capture.init, u0, "", []⟩ hb.acts).c.HasStatus = false ∧
    (serveParts rw hb u0).c.status = 500 ∧
    (serveParts rw hb u0).c.statusSet = true ∧
    (serveParts rw hb u0).u
      = (rw.write (rw.writeHeader u0 500) ("500 " ++ statusText500 ++ "\n")).1 ∧
    (serveRecord rw snap hb u0 t0 t1).w.status = 500 := by
  obtain ⟨hc, hu⟩ := runActions_resp_free rw hb.acts ⟨Capture.init, u0, "", []⟩ h
  have hinit : Capture.init.statusSet = false := rfl
  have h500 : maybeSend500 rw Capture.init u0
      = (⟨500, (rw.write (rw.writeHeader u0 500)
            ("500 " ++ statusText500 ++ "\n")).2.1, true⟩,
         (rw.write (rw.writeHeader u0 500)
            ("500 " ++ statusText500 ++ "\n")).1) := by
    simp [maybeSend500, sendError500, Capture.HasStatus, Capture.init,
      Capture.Write, Capture.WriteHeader, Capture.maybeSetStatus]
  refine ⟨by simp [Capture.HasStatus, hc, hinit], ?_, ?_, ?_, ?_⟩ <;>
    simp [serveRecord, serveParts, hc, hu, h500]

/-- C2 witness: a handler that only appends extra text (no header, no
body) makes the coordinator send 500 to the underlying writer and log
status 500. -/
theorem serveHTTP_synthesizes_500_witness :
    (runActions kRW ⟨Capture.init, [], "", []⟩
        [HAction.writeExtra " behere"]).c.HasStatus = false ∧
    (serveParts kRW ⟨[HAction.writeExtra " behere"], HOutcome.normal⟩ []).c.status
      = 500 ∧
    (serveParts kRW ⟨[HAction.writeExtra " behere"], HOutcome.normal⟩ []).c.statusSet
      = true ∧
    (serveParts kRW ⟨[HAction.writeExtra " behere"], HOutcome.normal⟩ []).u
      = (kRW.write (kRW.writeHeader [] 500) ("500 " ++ statusText500 ++ "\n")).1 ∧
    (serveRecord kRW kSnap ⟨[HAction.writeExtra " behere"], HOutcome.normal⟩
        [] kTime kTime387).w.status = 500 :=
  serveHTTP_synthesizes_500 kRW kSnap
    ⟨[HAction.writeExtra " behere"], HOutcome.normal⟩ [] kTime kTime387
    (by decide)

/-- C3: when the wrapped handler's first response-touching call is a body
write, the capture records status 200 — both right after the handler runs
and in the assembled log record; for every behaviour, the capture's final
size is the sum of the byte counts the underlying writer accepted for the
handler's writes; and the size counter never decreases along the run. -/
theorem capture_status200_size (rw : ResponseWriter σ) (snap : Snapshot)
    (hb : HandlerBehavior) (u0 : σ) (t0 t1 : GoTime) :
    (firstRespIsWrite hb.acts = true →
      (runActions rw ⟨Capture.init, u0, "", []⟩ hb.acts).c.status = 200 ∧
      (serveRecord rw snap hb u0 t0 t1).w.status = 200) ∧
    ((runActions rw ⟨Capture.init, u0, "", []⟩ hb.acts).c.size
      = (acceptedSizes rw hb.acts u0).sum) ∧
    (∀ pre post, hb.acts = pre ++ post →
      (runActions rw ⟨Capture.init, u0, "", []⟩ pre).c.size
        ≤ (runActions rw ⟨Capture.init, u0, "", []⟩ hb.acts).c.size) := by
  refine ⟨fun hfw => ?_, ?_, fun pre post hsplit => ?_⟩
  · obtain ⟨h200, hset⟩ := runActions_first_write_200 rw hb.acts
      ⟨Capture.init, u0, "", []⟩ rfl hfw
    refine ⟨h200, ?_⟩
    simp [serveRecord, serveParts, maybeSend500, Capture.HasStatus, hset, h200]
  · simpa [Capture.init] using
      runActions_size rw hb.acts ⟨Capture.init, u0, "", []⟩
  · rw [hsplit, runActions_append]
    exact runActions_size_mono rw post _

/-- C3 witness: a handler writing `1234567` and then an explicit header
321 records status 200, size 7 = the accepted count, and the size after
the body write alone is no larger than the final size. -/
theorem capture_status200_size_witness :
    (runActions kRW ⟨Capture.init, [], "", []⟩ kWriteBehavior.acts).c.status
      = 200 ∧
    ((runActions kRW ⟨Capture.init, [], "", []⟩ kWriteBehavior.acts).c.size
      = (acceptedSizes kRW kWriteBehavior.acts []).sum) ∧
    (runActions kRW ⟨Capture.init, [], "", []⟩
        [HAction.writeBody "1234567"]).c.size
      ≤ (runActions kRW ⟨Capture.init, [], "", []⟩ kWriteBehavior.acts).c.size := by
  have h := capture_status200_size kRW kSnap kWriteBehavior [] kTime kTime387
  exact ⟨(h.1 (by decide)).1, h.2.1,
    h.2.2 [HAction.writeBody "1234567"] [HAction.writeHeader 321] rfl⟩

/-- C4: status capture is first-write-wins — once the capture has a status
(set by an explicit header write or implicitly by a body write), a later
`WriteHeader` with any code leaves the recorded status unchanged while the
call is still forwarded to the underlying writer. -/
theorem writeHeader_first_write_wins (rw : ResponseWriter σ) (c : Capture)
    (u : σ) (s : Nat) (h : c.statusSet = true) :
    (Capture.WriteHeader rw c u s).1.status = c.status ∧
    (Capture.WriteHeader rw c u s).1.statusSet = true ∧
    (Capture.WriteHeader rw c u s).2 = rw.writeHeader u s := by
  simp [Capture.WriteHeader, maybeSetStatus_of_set _ _ h, h]

/-- C4 witness: a capture already holding status 321 keeps 321 after
`WriteHeader 400`, and the underlying writer still receives the 400. -/
theorem writeHeader_first_write_wins_witness :
    (Capture.WriteHeader kRW ⟨321, 5, true⟩ [] 400).1.status = 321 ∧
    (Capture.WriteHeader kRW ⟨321, 5, true⟩ [] 400).1.statusSet = true ∧
    (Capture.WriteHeader kRW ⟨321, 5, true⟩ [] 400).2 = kRW.writeHeader [] 400 :=
  writeHeader_first_write_wins kRW ⟨321, 5, true⟩ [] 400 rfl

/-- C5: once the snapshot is taken, any in-place mutation of the URL cell
the request points at (e.g. rewriting its path) leaves the snapshot
unaffected: reading the snapshot afterwards yields exactly the request's
arrival-time fields and arrival-time URL value, so the rendered log line
cannot change. The hypothesis says the request's URL cell is an allocated
cell of the heap. -/
theorem newSnapshot_immune_to_mutation (h : URLHeap) (r : RequestRef)
    (hr : r.urlRef < h.next) (f : URL → URL) :
    SnapshotRef.read (mutateURL (NewSnapshot h r).1 r.urlRef f)
        (NewSnapshot h r).2
      = ⟨r.remoteAddr, r.method, r.proto, h.cells r.urlRef, r.referer,
         r.userAgent⟩ ∧
    SnapshotRef.read (mutateURL (NewSnapshot h r).1 r.urlRef f)
        (NewSnapshot h r).2
      = SnapshotRef.read (NewSnapshot h r).1 (NewSnapshot h r).2 := by
  have hne : h.next ≠ r.urlRef := (Nat.ne_of_lt hr).symm
  constructor <;>
    simp [NewSnapshot, mutateURL, SnapshotRef.read, hne]

/-- C5 witness: with one allocated URL cell, rewriting the request's URL
path after the snapshot leaves the snapshot reading its arrival URL. -/
theorem newSnapshot_immune_to_mutation_witness :
    SnapshotRef.read
        (mutateURL
          (NewSnapshot ⟨fun _ => kURL, 1⟩
            ⟨"192.168.5.1:3333", "GET", "HTTP/1.0", 0, "", ""⟩).1
          0 (fun u => { u with path := "/HandlerMutatedRequest" }))
        (NewSnapshot ⟨fun _ => kURL, 1⟩
          ⟨"192.168.5.1:3333", "GET", "HTTP/1.0", 0, "", ""⟩).2
      = ⟨"192.168.5.1:3333", "GET", "HTTP/1.0", kURL, "", ""⟩ := by
  have := (newSnapshot_immune_to_mutation ⟨fun _ => kURL, 1⟩
      ⟨"192.168.5.1:3333", "GET", "HTTP/1.0", 0, "", ""⟩ (by decide)
      (fun u => { u with path := "/HandlerMutatedRequest" })).1
  simpa using this

/-- C6: for a request never registered with the coordinator, `Writer`
returns the no-op `nilWriter`, whose `Write` reports the full length
accepted with no error while leaving every buffer untouched, and `Values`
returns the absent indicator rather than faulting. -/
theorem unregistered_side_channel_noop (ctx : RequestCtx)
    (hb : ctx.buffered = none) (hv : ctx.valued = none) :
    Writer ctx = WriterHandle.nilWriter ∧
    (∀ (st : BufStore) (p : String),
      WriterHandle.write st (Writer ctx) p = (st, p.length, none)) ∧
    Values ctx = none := by
  refine ⟨by simp [Writer, hb], fun st p => ?_, by simp [Values, hv]⟩
  simp [Writer, hb, WriterHandle.write]

/-- C6 witness: on the empty registration, a write of `abc` through the
returned writer reports 3 bytes accepted, no error, and no buffer
changes; `Values` is absent. -/
theorem unregistered_side_channel_noop_witness :
    Writer ⟨none, none⟩ = WriterHandle.nilWriter ∧
    WriterHandle.write (fun _ => "") (Writer ⟨none, none⟩) "abc"
      = (fun _ => "", 3, none) ∧
    Values ⟨none, none⟩ = none := by
  have h := unregistered_side_channel_noop ⟨none, none⟩ rfl rfl
  exact ⟨h.1, h.2.1 (fun _ => "") "abc", h.2.2⟩

/-- C7 counterexample: on the spec's literal scenario the Simple formatter
does not render the claimed microsecond timestamp — the layout string
`01/02/2006 15:04:05` has no fractional-second field. -/
theorem simpleLog_microseconds_cex :
    simpleLogLine kSimpleRec
      ≠ "03/23/2013 13:14:15.123456 192.168.5.1 GET /foo/bar?query=tall 321 387\n" := by
  decide

/-- C7 amended: the Simple formatter, on the same record (start timestamp
2013-03-23T13:14:15.123456Z, remote `192.168.5.1:3333`, `GET`,
`/foo/bar?query=tall`, status 321, elapsed 387ms, empty extra), renders
the line with the timestamp at whole-second precision, the remote address
without its port, and elapsed in whole milliseconds, newline-terminated. -/
theorem simpleLog_renders_seconds_precision :
    simpleLogLine kSimpleRec
      = "03/23/2013 13:14:15 192.168.5.1 GET /foo/bar?query=tall 321 387\n" := by
  decide

/-- The user field as the spec words it: `-` for nil user-info or an empty
username, and the username otherwise. -/
def userFieldSpec (user : Option String) : String :=
  if user = none ∨ user = some "" then "-"
  else user.getD "-"

/-- Modelled from the spec: the Apache Common line template
`remote - user [time] quoted-request status size`, with the bracketed time
rendered from the timestamp's own zone offset (the amendment) and the user
field per the spec's words. -/
def apacheCommonSpecLine (rec : LogRecord) : String :=
  StripPort rec.r.remoteAddr ++ " - " ++ userFieldSpec rec.r.url.user ++
  " [" ++ formatApacheLayout rec.t ++ "] \"" ++ rec.r.method ++ " " ++
  requestURI rec.r.url ++ " " ++ rec.r.proto ++ "\" " ++
  toString rec.w.status ++ " " ++ toString rec.w.size ++ "\n"

theorem userFieldSpec_eq_ApacheUser (user : Option String) :
    userFieldSpec user = ApacheUser user := by
  rcases user with _ | name
  · simp [userFieldSpec, ApacheUser]
  · by_cases hn : name = "" <;> simp [userFieldSpec, ApacheUser, hn]

/-- C8 counterexample: for a timestamp carried in a zone one hour east of
UTC, the Apache Common formatter renders the bracketed time with `+0100`,
not with the claimed fixed `+0000` — the layout field `-0700` renders the
timestamp's own zone offset. -/
theorem apacheCommon_fixed_offset_cex :
    apacheCommonLogLine kApacheRecOffset
      = "192.168.5.1 - fred [23/Mar/2013:13:14:15 +0100] \"GET /foo/bar?query=tall HTTP/1.0\" 321 7\n" ∧
    apacheCommonLogLine kApacheRecOffset
      ≠ "192.168.5.1 - fred [23/Mar/2013:13:14:15 +0000] \"GET /foo/bar?query=tall HTTP/1.0\" 321 7\n" := by
  constructor <;> decide

/-- C8 amended: the Apache Common formatter renders
`remote-addr-without-port - user [DD/Mon/YYYY:HH:MM:SS zone-offset]
"method request-uri protocol" status size`, with the user field `-` for
nil user-info or an empty username and the username otherwise, and with
the bracketed offset taken from the timestamp's own zone — `+0000`
exactly when that zone's offset is zero (UTC), as in the spec's literal
scenario. -/
theorem apacheCommon_renders_zone_offset :
    (∀ rec : LogRecord, apacheCommonLogLine rec = apacheCommonSpecLine rec) ∧
    offsetString 0 = "+0000" ∧
    apacheCommonLogLine kApacheRec
      = "192.168.5.1 - fred [23/Mar/2013:13:14:15 +0000] \"GET /foo/bar?query=tall HTTP/1.0\" 321 7\n" := by
  refine ⟨fun rec => ?_, by decide, by decide⟩
  simp [apacheCommonLogLine, apacheCommonSpecLine, userFieldSpec_eq_ApacheUser]

/-- A handler behaviour that sets status 321 and appends the extra text
`x` (with no leading space of its own). -/
def kExtraXBehavior : HandlerBehavior :=
  ⟨[HAction.writeHeader 321, HAction.writeExtra "x"], HOutcome.normal⟩

/-- C9 counterexample: a handler that appends `x` through the side
channel produces a Simple line in which `x` follows the elapsed-ms field
immediately — the formatter inserts no separating space, so the line
differs from the claimed one-space-separated form. -/
theorem simpleExtra_no_separator_cex :
    (serveHTTP kRW simpleLogLine kSnap kExtraXBehavior [] kTime kTime387).2
      = [Entry.logLine
          "03/23/2013 13:14:15 192.168.5.1 GET /foo/bar?query=tall 321 387x\n"] ∧
    "03/23/2013 13:14:15 192.168.5.1 GET /foo/bar?query=tall 321 387x\n"
      ≠ "03/23/2013 13:14:15 192.168.5.1 GET /foo/bar?query=tall 321 387 x\n" := by
  constructor <;> decide

/-- C9 amended: everything the handler writes through `Writer(r)` appears
verbatim, concatenated in append order, in the rendered Simple line,
placed immediately after the elapsed-ms field with no separator inserted
by the formatter (conventionally the handler writes its own leading
space) and nothing after it before the newline; when nothing was appended
the line ends right after the elapsed-ms field. -/
theorem simpleExtra_verbatim_append (rw : ResponseWriter σ)
    (snap : Snapshot) (hb : HandlerBehavior) (u0 : σ) (t0 t1 : GoTime) :
    (serveRecord rw snap hb u0 t0 t1).extra = extrasOf hb.acts ∧
    simpleLogLine (serveRecord rw snap hb u0 t0 t1)
      = simpleLineHead (serveRecord rw snap hb u0 t0 t1)
          ++ extrasOf hb.acts ++ "\n" ∧
    (extrasOf hb.acts = "" →
      simpleLogLine (serveRecord rw snap hb u0 t0 t1)
        = simpleLineHead (serveRecord rw snap hb u0 t0 t1) ++ "\n") := by
  have hx : (serveRecord rw snap hb u0 t0 t1).extra = extrasOf hb.acts := by
    have := runActions_extra rw hb.acts ⟨Capture.init, u0, "", []⟩
    simpa [serveRecord, serveParts] using this
  have hline : simpleLogLine (serveRecord rw snap hb u0 t0 t1)
      = simpleLineHead (serveRecord rw snap hb u0 t0 t1)
          ++ extrasOf hb.acts ++ "\n" := by
    simp [simpleLogLine, simpleLineHead, String.append_assoc, hx]
  refine ⟨hx, hline, fun hempty => ?_⟩
  simp [hline, hempty]

/-- C9 amended witness: a handler that appends nothing yields the Simple
line head followed directly by the newline. -/
theorem simpleExtra_verbatim_append_witness :
    (serveRecord kRW kSnap kWriteBehavior [] kTime kTime387).extra
      = extrasOf kWriteBehavior.acts ∧
    simpleLogLine (serveRecord kRW kSnap kWriteBehavior [] kTime kTime387)
      = simpleLineHead (serveRecord kRW kSnap kWriteBehavior [] kTime kTime387)
          ++ "\n" := by
  have h := simpleExtra_verbatim_append kRW kSnap kWriteBehavior [] kTime kTime387
  exact ⟨h.1, h.2.2 rfl⟩

theorem lastIndexOf_eq_none (c : Char) :
    ∀ s : List Char, c ∉ s → lastIndexOf c s = none := by
  intro s
  induction s with
  | nil => intro _; rfl
  | cons x xs ih =>
      intro h
      have hx : ¬x = c := fun e => h (e ▸ List.mem_cons_self x xs)
      have hxs : c ∉ xs := fun m => h (List.mem_cons_of_mem _ m)
      simp [lastIndexOf, ih hxs, hx]

theorem not_mem_of_lastIndexOf_none (c : Char) :
    ∀ s : List Char, lastIndexOf c s = none → c ∉ s := by
  intro s
  induction s with
  | nil => intro _; simp
  | cons x xs ih =>
      intro h
      cases hxs : lastIndexOf c xs with
      | some j => simp [lastIndexOf, hxs] at h
      | none =>
          by_cases hx : x = c
          · simp [lastIndexOf, hxs, hx] at h
          · have := ih hxs
            simp [List.mem_cons, this]
            exact fun e => hx e.symm

theorem lastIndexOf_isSome_of_mem (c : Char) :
    ∀ s : List Char, c ∈ s → ∃ i, lastIndexOf c s = some i := by
  intro s
  induction s with
  | nil => intro h; simp at h
  | cons x xs ih =>
      intro h
      cases hxs : lastIndexOf c xs with
      | some j => exact ⟨j + 1, by simp [lastIndexOf, hxs]⟩
      | none =>
          have hnx : c ∉ xs := not_mem_of_lastIndexOf_none c xs hxs
          have hx : x = c := by
            rcases List.mem_cons.mp h with h' | h'
            · exact h'.symm
            · exact absurd h' hnx
          exact ⟨0, by simp [lastIndexOf, hxs, hx]⟩

theorem lastIndexOf_spec (c : Char) :
    ∀ (s : List Char) (i : Nat), lastIndexOf c s = some i →
      i < s.length ∧ s.take i ++ c :: s.drop (i + 1) = s ∧
        c ∉ s.drop (i + 1) := by
  intro s
  induction s with
  | nil => intro i h; simp [lastIndexOf] at h
  | cons x xs ih =>
      intro i h
      cases hxs : lastIndexOf c xs with
      | some j =>
          have hi : i = j + 1 := by
            simp [lastIndexOf, hxs] at h
            omega
          obtain ⟨hlt, heq, hnm⟩ := ih j hxs
          subst hi
          refine ⟨by simpa using Nat.succ_lt_succ hlt, ?_, by simpa using hnm⟩
          simpa [List.take, List.drop] using congrArg (x :: ·) heq
      | none =>
          have hx : x = c := by
            by_cases hx' : x = c
            · exact hx'
            · simp [lastIndexOf, hxs, hx'] at h
          have hi : i = 0 := by
            simp [lastIndexOf, hxs, hx] at h
            omega
          subst hi
          exact ⟨Nat.succ_pos _, by simp [hx],
            by simpa using not_mem_of_lastIndexOf_none c xs hxs⟩

/-- C10: `StripPort` returns its argument unchanged when it holds no
colon, and otherwise returns exactly the prefix before the last colon
(what follows that colon holds no further colon); in particular the
bracketed IPv6 address `[::1]:4050` strips to `[::1]`, not to a prefix of
the first colon. -/
theorem stripPort_before_last_colon (s : List Char) :
    (':' ∉ s → stripPortL s = s) ∧
    (':' ∈ s →
      stripPortL s ++ ':' :: s.drop ((stripPortL s).length + 1) = s ∧
      ':' ∉ s.drop ((stripPortL s).length + 1)) ∧
    StripPort "[::1]:4050" = "[::1]" := by
  refine ⟨fun hnm => ?_, fun hm => ?_, by decide⟩
  · simp [stripPortL, lastIndexOf_eq_none ':' s hnm]
  · obtain ⟨i, hi⟩ := lastIndexOf_isSome_of_mem ':' s hm
    obtain ⟨hlt, heq, hnm⟩ := lastIndexOf_spec ':' s i hi
    have hsp : stripPortL s = s.take i := by simp [stripPortL, hi]
    have hlen : (s.take i).length = i := by
      simp [List.length_take, Nat.min_eq_left (Nat.le_of_lt hlt)]
    rw [hsp, hlen]
    exact ⟨heq, hnm⟩

/-- C10 witness: `10.0.1.3:25972` holds a colon; the strip yields the
prefix before it and the remainder holds no colon. -/
theorem stripPort_before_last_colon_witness :
    ':' ∈ "10.0.1.3:25972".data ∧
    (stripPortL "10.0.1.3:25972".data ++
        ':' :: "10.0.1.3:25972".data.drop
          ((stripPortL "10.0.1.3:25972".data).length + 1)
      = "10.0.1.3:25972".data ∧
    ':' ∉ "10.0.1.3:25972".data.drop
        ((stripPortL "10.0.1.3:25972".data).length + 1)) :=
  ⟨by decide,
   (stripPort_before_last_colon "10.0.1.3:25972".data).2.1 (by decide)⟩

end Weblogs
